import Mathlib

/-!
Shallow embedding of the `cmsis-pack-manager` PDSC device parser
(`src/rust/pdsc/src/device.rs`) and index crawler
(`src/rust/cmsis-update/src/vidx.rs`).

Rust `HashMap`/`BTreeMap` values are embedded as association lists with
insert-replace semantics (`SMap`); `Result` as `Except String`; a computation
that can panic (an `unwrap` on `None`) as `Option`, where `none` is the panic.
-/

set_option maxRecDepth 10000

deriving instance DecidableEq for Except

/-- Association-list map with string keys, standing in for the Rust
`HashMap<String, _>` / `BTreeMap<String, _>` values: `insert` replaces any
existing entry for the key, `extend` folds `insert` over a pair list (the
semantics of `HashMap::extend` / `BTreeMap::extend`). -/
abbrev SMap (β : Type) : Type := List (String × β)

def SMap.lookup {β : Type} (m : SMap β) (k : String) : Option β :=
  match m with
  | [] => none
  | (k', v) :: t => if k' = k then some v else SMap.lookup t k

def SMap.containsKey {β : Type} (m : SMap β) (k : String) : Bool :=
  (m.lookup k).isSome

def SMap.erase {β : Type} (m : SMap β) (k : String) : SMap β :=
  List.filter (fun kv => !(kv.1 = k : Bool)) m

def SMap.insert {β : Type} (m : SMap β) (k : String) (v : β) : SMap β :=
  m.erase k ++ [(k, v)]

def SMap.extend {β : Type} (m : SMap β) (l : List (String × β)) : SMap β :=
  l.foldl (fun acc kv => acc.insert kv.1 kv.2) m

/-- Keys of the entry list are pairwise distinct (true of any list obtained by
iterating a Rust map). -/
abbrev nodupKeys {β : Type} (l : List (String × β)) : Prop :=
  (l.map Prod.fst).Nodup

/-- Substring containment, the semantics of Rust `str::contains(&str)`. -/
def listInfixOf (needle haystack : List Char) : Bool :=
  match haystack with
  | [] => needle.isEmpty
  | _ :: t => needle.isPrefixOf haystack || listInfixOf needle t

def strContainsStr (haystack needle : String) : Bool :=
  listInfixOf needle.data haystack.data

/-- XML element: tag name, attributes in document order, children in document
order (the part of `minidom::Element` the parser reads). -/
structure Element where
  name : String
  attrs : List (String × String)
  children : List Element

def Element.attr (e : Element) (k : String) : Option String :=
  match e.attrs.find? (fun kv => kv.1 = k) with
  | some kv => some kv.2
  | none => none

/-! ## Enums (`Core`, `FPU`, `MPU`, `NumberBool`) and their `FromStr` -/

inductive Core where
  | CortexM0 | CortexM0Plus | CortexM1 | CortexM3 | CortexM4 | CortexM7
  | CortexM23 | CortexM33 | SC000 | SC300 | ARMV8MBL | ARMV8MML
  | CortexR4 | CortexR5 | CortexR7 | CortexR8
  | CortexA5 | CortexA7 | CortexA8 | CortexA9 | CortexA15 | CortexA17
  | CortexA32 | CortexA35 | CortexA53 | CortexA57 | CortexA72 | CortexA73
deriving DecidableEq, Repr

def Core.from_str (s : String) : Except String Core :=
  match s with
  | "Cortex-M0" => .ok .CortexM0
  | "Cortex-M0+" => .ok .CortexM0Plus
  | "Cortex-M1" => .ok .CortexM1
  | "Cortex-M3" => .ok .CortexM3
  | "Cortex-M4" => .ok .CortexM4
  | "Cortex-M7" => .ok .CortexM7
  | "Cortex-M23" => .ok .CortexM23
  | "Cortex-M33" => .ok .CortexM33
  | "SC000" => .ok .SC000
  | "SC300" => .ok .SC300
  | "ARMV8MBL" => .ok .ARMV8MBL
  | "ARMV8MML" => .ok .ARMV8MML
  | "Cortex-R4" => .ok .CortexR4
  | "Cortex-R5" => .ok .CortexR5
  | "Cortex-R7" => .ok .CortexR7
  | "Cortex-R8" => .ok .CortexR8
  | "Cortex-A5" => .ok .CortexA5
  | "Cortex-A7" => .ok .CortexA7
  | "Cortex-A8" => .ok .CortexA8
  | "Cortex-A9" => .ok .CortexA9
  | "Cortex-A15" => .ok .CortexA15
  | "Cortex-A17" => .ok .CortexA17
  | "Cortex-A32" => .ok .CortexA32
  | "Cortex-A35" => .ok .CortexA35
  | "Cortex-A53" => .ok .CortexA53
  | "Cortex-A57" => .ok .CortexA57
  | "Cortex-A72" => .ok .CortexA72
  | "Cortex-A73" => .ok .CortexA73
  | unknown => .error ("Unknown core " ++ unknown)

inductive FPU where
  | None | SinglePrecision | DoublePrecision
deriving DecidableEq, Repr

def FPU.from_str (s : String) : Except String FPU :=
  match s with
  | "FPU" => .ok .SinglePrecision
  | "SP_FPU" => .ok .SinglePrecision
  | "1" => .ok .SinglePrecision
  | "None" => .ok .None
  | "0" => .ok .None
  | "DP_FPU" => .ok .DoublePrecision
  | "2" => .ok .DoublePrecision
  | unknown => .error ("Unknown fpu " ++ unknown)

inductive MPU where
  | NotPresent | Present
deriving DecidableEq, Repr

def MPU.from_str (s : String) : Except String MPU :=
  match s with
  | "MPU" => .ok .Present
  | "1" => .ok .Present
  | "None" => .ok .NotPresent
  | "0" => .ok .NotPresent
  | unknown => .error ("Unknown fpu " ++ unknown)

inductive NumberBool where
  | False | True
deriving DecidableEq, Repr

def NumberBool.from_str (s : String) : Except String NumberBool :=
  match s with
  | "true" => .ok .True
  | "1" => .ok .True
  | "false" => .ok .False
  | "0" => .ok .False
  | unknown => .error ("unkown boolean found in merory startup " ++ unknown)

def NumberBool.toBool : NumberBool → Bool
  | .True => true
  | .False => false

/-- Rust `bool::FromStr`: accepts exactly `"true"` and `"false"`
(used by `Algorithm::from_elem` for the `default` attribute). -/
def rustBool.from_str (s : String) : Except String Bool :=
  match s with
  | "true" => .ok true
  | "false" => .ok false
  | unknown => .error ("provided string was not true or false: " ++ unknown)

/-! ## Attribute helpers (`utils::parse`, not under `src/`) -/

/-- Modelled from the spec: `attr_map(e, key, ctx)` from the `utils::parse`
module (its code is not under `src/`) — "→ string; fails *missing* when
absent". -/
def attr_map (e : Element) (key ctx : String) : Except String String :=
  match e.attr key with
  | some v => .ok v
  | none => .error ("missing attribute " ++ key ++ " in " ++ ctx)

/-- Modelled from the spec: `attr_parse(e, key, ctx)` from the `utils::parse`
module (its code is not under `src/`) — "→ T (any type implementing
string-parse); fails *missing* when absent, *invalid* on parse error". The
per-type parse function is passed explicitly. -/
def attr_parse {α : Type} (p : String → Except String α)
    (e : Element) (key ctx : String) : Except String α :=
  match e.attr key with
  | some v =>
    match p v with
    | .ok a => .ok a
    | .error _ => .error ("invalid attribute " ++ key ++ " in " ++ ctx)
  | none => .error ("missing attribute " ++ key ++ " in " ++ ctx)

def hexDigit (c : Char) : Option Nat :=
  if '0' ≤ c ∧ c ≤ '9' then some (c.toNat - '0'.toNat)
  else if 'a' ≤ c ∧ c ≤ 'f' then some (c.toNat - 'a'.toNat + 10)
  else if 'A' ≤ c ∧ c ≤ 'F' then some (c.toNat - 'A'.toNat + 10)
  else none

def hexOfChars (l : List Char) (acc : Nat) : Option Nat :=
  match l with
  | [] => some acc
  | c :: t =>
    match hexDigit c with
    | some d => hexOfChars t (acc * 16 + d)
    | none => none

/-- Modelled from the spec: `attr_parse_hex(e, key, ctx)` from the
`utils::parse` module (its code is not under `src/`) — "→ u64; accepts
optional `0x` prefix; fails *missing* or *invalid*"; the value is parsed
as hexadecimal. -/
def attr_parse_hex (e : Element) (key ctx : String) : Except String Nat :=
  match e.attr key with
  | some v =>
    let digits := if "0x".isPrefixOf v then v.data.drop 2 else v.data
    match if digits.isEmpty then none else hexOfChars digits 0 with
    | some n => .ok n
    | none => .error ("invalid attribute " ++ key ++ " in " ++ ctx)
  | none => .error ("missing attribute " ++ key ++ " in " ++ ctx)

/-- Modelled from the spec: decimal parse of `Punits` (`u8` via
`attr_parse`); a value above `u8::MAX` or a non-digit string is *invalid*. -/
def u8.from_str (s : String) : Except String Nat :=
  let step : Option Nat → Char → Option Nat := fun acc c =>
    match acc with
    | some n => if '0' ≤ c ∧ c ≤ '9' then some (n * 10 + (c.toNat - '0'.toNat)) else none
    | none => none
  match s.data.foldl step (if s.data.isEmpty then none else some 0) with
  | some n => if n ≤ 255 then .ok n else .error ("number too large " ++ s)
  | none => .error ("invalid digit " ++ s)

/-! ## Processors (`device.rs` lines 122–243) -/

structure Processor where
  units : Nat
  core : Core
  fpu : FPU
  mpu : MPU
deriving DecidableEq, Repr

structure ProcessorBuilder where
  core : Option Core
  units : Option Nat
  fpu : Option FPU
  mpu : Option MPU
deriving DecidableEq, Repr

/-- Rust `ProcessorBuilder::merge` (device.rs 139–146): field-wise
`self.field.or(parent.field)`. -/
def ProcessorBuilder.merge (self parent : ProcessorBuilder) : ProcessorBuilder :=
  { core := self.core.or parent.core
    units := self.units.or parent.units
    fpu := self.fpu.or parent.fpu
    mpu := self.mpu.or parent.mpu }

/-- Rust `ProcessorBuilder::build` (device.rs 148–155). -/
def ProcessorBuilder.build (self : ProcessorBuilder) : Except String Processor :=
  match self.core with
  | none => .error "No Core found!"
  | some c =>
    .ok { core := c
          units := self.units.getD 1
          fpu := self.fpu.getD FPU.None
          mpu := self.mpu.getD MPU.NotPresent }

/-- Rust `ProcessorBuilder::from_elem` (device.rs 158–167). -/
def ProcessorBuilder.fromElem (e : Element) : ProcessorBuilder :=
  { core := (attr_parse Core.from_str e "Dcore" "processor").toOption
    units := (attr_parse u8.from_str e "Punits" "processor").toOption
    fpu := (attr_parse FPU.from_str e "Dfpu" "processor").toOption
    mpu := (attr_parse MPU.from_str e "Dmpu" "processor").toOption }

inductive Processors where
  | Symmetric (p : Processor)
  | Asymmetric (m : SMap Processor)
deriving DecidableEq, Repr

inductive ProcessorsBuilder where
  | Symmetric (p : ProcessorBuilder)
  | Asymmetric (m : SMap ProcessorBuilder)
deriving DecidableEq, Repr

/-- Rust `ProcessorsBuilder::merge` (device.rs 182–204). In the `Asymmetric` /
`Asymmetric` case the Rust code runs `me.extend(par_map.iter())`:
`BTreeMap::extend` inserts every parent entry, replacing the child entry on
an existing key. -/
def ProcessorsBuilder.merge :
    ProcessorsBuilder → Option ProcessorsBuilder → Except String ProcessorsBuilder
  | .Symmetric me, some (.Symmetric single_core) =>
    .ok (.Symmetric (me.merge single_core))
  | .Symmetric _, some (.Asymmetric _) =>
    .error "Tried to merge symmetric and asymmetric processors"
  | .Symmetric me, none => .ok (.Symmetric me)
  | .Asymmetric _, some (.Symmetric _) =>
    .error "Tried to merge asymmetric and symmetric processors"
  | .Asymmetric me, some (.Asymmetric par_map) =>
    .ok (.Asymmetric (me.extend par_map))
  | .Asymmetric me, none => .ok (.Asymmetric me)

/-- Rust `ProcessorsBuilder::merge_into` (device.rs 206–214). -/
def ProcessorsBuilder.mergeInto :
    ProcessorsBuilder → ProcessorsBuilder → ProcessorsBuilder
  | .Symmetric me, _ => .Symmetric me
  | .Asymmetric me, .Symmetric _ => .Asymmetric me
  | .Asymmetric me, .Asymmetric more => .Asymmetric (me.extend more)

def buildAsymEntries (l : List (String × ProcessorBuilder)) :
    Except String (List (String × Processor)) :=
  match l with
  | [] => .ok []
  | (k, pb) :: t =>
    match pb.build with
    | .error e => .error e
    | .ok p =>
      match buildAsymEntries t with
      | .error e => .error e
      | .ok t' => .ok ((k, p) :: t')

/-- Rust `ProcessorsBuilder::build` (device.rs 216–229). -/
def ProcessorsBuilder.build : ProcessorsBuilder → Except String Processors
  | .Symmetric prc => (prc.build).map Processors.Symmetric
  | .Asymmetric m => (buildAsymEntries m).map Processors.Asymmetric

/-- Rust `ProcessorsBuilder::from_elem` (device.rs 232–243): a `Pname` attribute
makes a singleton `Asymmetric` map, otherwise `Symmetric`. -/
def ProcessorsBuilder.fromElem (e : Element) : ProcessorsBuilder :=
  match e.attr "Pname" with
  | some nm => .Asymmetric [(nm, ProcessorBuilder.fromElem e)]
  | none => .Symmetric (ProcessorBuilder.fromElem e)

/-! ## Memory (`device.rs` lines 245–383) -/

structure MemoryPermissions where
  read : Bool
  write : Bool
  execute : Bool
  peripheral : Bool
  secure : Bool
  non_secure : Bool
  non_secure_callable : Bool
deriving DecidableEq, Repr

def permNone : MemoryPermissions :=
  { read := false, write := false, execute := false, peripheral := false
    secure := false, non_secure := false, non_secure_callable := false }

/-- One step of the character loop in `MemoryPermissions::from_str`
(device.rs 267–278). -/
def permStep (m : MemoryPermissions) (c : Char) : MemoryPermissions :=
  if c = 'r' then { m with read := true }
  else if c = 'w' then { m with write := true }
  else if c = 'x' then { m with execute := true }
  else if c = 'p' then { m with peripheral := true }
  else if c = 's' then { m with secure := true }
  else if c = 'n' then { m with non_secure := true }
  else if c = 'c' then { m with non_secure_callable := true }
  else m

/-- Rust `MemoryPermissions::from_str` (device.rs 256–281). -/
def MemoryPermissions.from_str (input : String) : MemoryPermissions :=
  input.data.foldl permStep permNone

structure Memory where
  access : MemoryPermissions
  start : Nat
  size : Nat
  startup : Bool
  default : Bool
deriving DecidableEq, Repr

structure MemElem where
  name : String
  memory : Memory
deriving DecidableEq, Repr

/-- The access-string computation at the head of `MemElem::from_elem`
(device.rs 326–338), before the trailing `.unwrap()`: `none` means both the
`access` and the `id` attribute are absent. -/
def memElemAccess (e : Element) : Option MemoryPermissions :=
  ((e.attr "access").or
    ((e.attr "id").map (fun memtype =>
      if strContainsStr memtype "ROM" then "rx"
      else if strContainsStr memtype "RAM" then "rw"
      else ""))).map MemoryPermissions.from_str

/-- Rust `MemElem::from_elem` (device.rs 324–364). The outer `Option` models the
`.unwrap()` on the access computation: `none` is the panic taken when neither
`access` nor `id` is present. -/
def MemElem.fromElem (e : Element) : Option (Except String MemElem) :=
  match memElemAccess e with
  | none => none
  | some access =>
    some (
      match (e.attr "id").or (e.attr "name") with
      | none => .error "No name found for memory"
      | some name =>
        match attr_parse_hex e "start" "memory" with
        | .error err => .error err
        | .ok start =>
          match attr_parse_hex e "size" "memory" with
          | .error err => .error err
          | .ok size =>
            .ok { name := name
                  memory :=
                    { access := access
                      start := start
                      size := size
                      startup := ((attr_parse NumberBool.from_str e "startup" "memory").map
                        NumberBool.toBool).toOption.getD false
                      default := ((attr_parse NumberBool.from_str e "default" "memory").map
                        NumberBool.toBool).toOption.getD false } })

abbrev Memories : Type := SMap Memory

/-- Rust `merge_memories` (device.rs 369–383): keep the parent (`rhs`) entries
whose key is absent from the child (`lhs`), then `HashMap::extend` the child
with them. -/
def merge_memories (lhs : Memories) (rhs : Memories) : Memories :=
  SMap.extend lhs (rhs.filter (fun kv => !(SMap.containsKey lhs kv.1)))

/-! ## Algorithm (`device.rs` lines 385–406) -/

structure Algorithm where
  file_name : String
  start : Nat
  size : Nat
  default : Bool
  ram_start : Option Nat
  ram_size : Option Nat
deriving DecidableEq, Repr

/-- Rust `Algorithm::from_elem` (device.rs 395–406). The `default` attribute is
parsed with Rust `bool::FromStr` and defaulted on failure. -/
def Algorithm.fromElem (e : Element) : Except String Algorithm :=
  match attr_map e "name" "algorithm" with
  | .error err => .error err
  | .ok file_name =>
    match attr_parse_hex e "start" "algorithm" with
    | .error err => .error err
    | .ok start =>
      match attr_parse_hex e "size" "algorithm" with
      | .error err => .error err
      | .ok size =>
        .ok { file_name := file_name
              start := start
              size := size
              ram_start := (attr_parse_hex e "RAMstart" "algorithm").toOption
              ram_size := (attr_parse_hex e "RAMsize" "algorithm").toOption
              default := ((attr_parse rustBool.from_str e "default" "algorithm").toOption).getD false }

/-! ## DeviceBuilder and Device (`device.rs` lines 408–481) -/

structure DeviceBuilder where
  name : Option String
  algorithms : List Algorithm
  memories : Memories
  processor : Option ProcessorsBuilder
deriving DecidableEq, Repr

structure Device where
  name : String
  memories : Memories
  algorithms : List Algorithm
  processor : Processors
deriving DecidableEq, Repr

/-- Rust `DeviceBuilder::from_elem` (device.rs 425–433). -/
def DeviceBuilder.fromElem (e : Element) : DeviceBuilder :=
  { name := (e.attr "Dname").or (e.attr "Dvariant")
    memories := ([] : Memories)
    algorithms := []
    processor := none }

/-- Rust `DeviceBuilder::build` (device.rs 435–449). -/
def DeviceBuilder.build (self : DeviceBuilder) : Except String Device :=
  match self.name with
  | none => .error "Device found without a name"
  | some name =>
    match self.processor with
    | none => .error ("Device found without a processor " ++ name)
    | some pb =>
      match pb.build with
      | .error err => .error err
      | .ok prcs =>
        .ok { name := name
              memories := self.memories
              algorithms := self.algorithms
              processor := prcs }

/-- Rust `DeviceBuilder::add_parent` (device.rs 451–462): the child's algorithm
vector is extended with the parent's (`self.algorithms.extend_from_slice`),
memories are merged child-wins, and the processor slots are merged. -/
def DeviceBuilder.addParent (self parent : DeviceBuilder) :
    Except String DeviceBuilder :=
  let algorithms := self.algorithms ++ parent.algorithms
  match self.processor with
  | some old_proc =>
    match old_proc.merge parent.processor with
    | .error err => .error err
    | .ok merged =>
      .ok { name := self.name.or parent.name
            algorithms := algorithms
            memories := merge_memories self.memories parent.memories
            processor := some merged }
  | none =>
    .ok { name := self.name.or parent.name
          algorithms := algorithms
          memories := merge_memories self.memories parent.memories
          processor := parent.processor }

/-- Rust `DeviceBuilder::add_processor` (device.rs 464–470). -/
def DeviceBuilder.addProcessor (self : DeviceBuilder) (p : ProcessorsBuilder) :
    DeviceBuilder :=
  match self.processor with
  | none => { self with processor := some p }
  | some origin => { self with processor := some (origin.mergeInto p) }

/-- Rust `DeviceBuilder::add_memory` (device.rs 472–475). -/
def DeviceBuilder.addMemory (self : DeviceBuilder) (me : MemElem) : DeviceBuilder :=
  { self with memories := SMap.insert self.memories me.name me.memory }

/-- Rust `DeviceBuilder::add_algorithm` (device.rs 477–480). -/
def DeviceBuilder.addAlgorithm (self : DeviceBuilder) (alg : Algorithm) : DeviceBuilder :=
  { self with algorithms := self.algorithms ++ [alg] }

/-! ## Tree walk (`device.rs` lines 483–602)

The walk is embedded in the `Option` monad: `none` is a panic propagated from
`MemElem::from_elem`'s `.unwrap()`. `Result::ok_warn` (log the error, keep
going) is embedded as `Except.toOption` followed by the empty-or-singleton
list. -/

def okWarnList {α : Type} (r : Except String α) : List α :=
  match r with
  | .ok a => [a]
  | .error _ => []

/-- One child step of `parse_device` (device.rs 483–517): the fold state is
the level builder together with the `variant` builders collected so far. -/
def devStep (st : DeviceBuilder × List DeviceBuilder) (c : Element) :
    Option (DeviceBuilder × List DeviceBuilder) :=
  match c.name with
  | "variant" => some (st.1, st.2 ++ [DeviceBuilder.fromElem c])
  | "memory" =>
    (MemElem.fromElem c).map (fun r =>
      match r with
      | .ok me => (st.1.addMemory me, st.2)
      | .error _ => st)
  | "algorithm" =>
    some (match Algorithm.fromElem c with
      | .ok alg => (st.1.addAlgorithm alg, st.2)
      | .error _ => st)
  | "processor" => some (st.1.addProcessor (ProcessorsBuilder.fromElem c), st.2)
  | _ => some st

/-- Rust `parse_device` (device.rs 483–517). -/
def parse_device (e : Element) : Option (List DeviceBuilder) := do
  let (device, variants) ← e.children.foldlM devStep (DeviceBuilder.fromElem e, [])
  if variants.isEmpty then
    pure [device]
  else
    pure (variants.foldl (fun acc bld => acc ++ okWarnList (bld.addParent device)) [])

/-- One child step of `parse_sub_family` (device.rs 519–549). -/
def subStep (st : DeviceBuilder × List DeviceBuilder) (c : Element) :
    Option (DeviceBuilder × List DeviceBuilder) :=
  match c.name with
  | "device" => (parse_device c).map (fun ds => (st.1, st.2 ++ ds))
  | "memory" =>
    (MemElem.fromElem c).map (fun r =>
      match r with
      | .ok me => (st.1.addMemory me, st.2)
      | .error _ => st)
  | "algorithm" =>
    some (match Algorithm.fromElem c with
      | .ok alg => (st.1.addAlgorithm alg, st.2)
      | .error _ => st)
  | "processor" => some (st.1.addProcessor (ProcessorsBuilder.fromElem c), st.2)
  | _ => some st

/-- Rust `parse_sub_family` (device.rs 519–549). -/
def parse_sub_family (e : Element) : Option (List DeviceBuilder) := do
  let (sub_family_device, devices) ←
    e.children.foldlM subStep (DeviceBuilder.fromElem e, [])
  pure (devices.foldl (fun acc bldr => acc ++ okWarnList (bldr.addParent sub_family_device)) [])

/-- One child step of `parse_family` (device.rs 551–582). -/
def famStep (st : DeviceBuilder × List DeviceBuilder) (c : Element) :
    Option (DeviceBuilder × List DeviceBuilder) :=
  match c.name with
  | "subFamily" => (parse_sub_family c).map (fun ds => (st.1, st.2 ++ ds))
  | "device" => (parse_device c).map (fun ds => (st.1, st.2 ++ ds))
  | "memory" =>
    (MemElem.fromElem c).map (fun r =>
      match r with
      | .ok me => (st.1.addMemory me, st.2)
      | .error _ => st)
  | "algorithm" =>
    some (match Algorithm.fromElem c with
      | .ok alg => (st.1.addAlgorithm alg, st.2)
      | .error _ => st)
  | "processor" => some (st.1.addProcessor (ProcessorsBuilder.fromElem c), st.2)
  | _ => some st

/-- Rust `collect::<Result<Vec<_>, _>>`: first error wins. -/
def collectExcept {ε α : Type} : List (Except ε α) → Except ε (List α)
  | [] => .ok []
  | x :: xs =>
    match x with
    | .error e => .error e
    | .ok a =>
      match collectExcept xs with
      | .error e => .error e
      | .ok t => .ok (a :: t)

/-- Rust `parse_family` (device.rs 551–582): every accumulated builder gets the
family contributions via `add_parent` and is built; the results are collected
into a single `Result`, so the first failing device aborts the family. -/
def parse_family (e : Element) : Option (Except String (List Device)) := do
  let (family_device, all_devices) ←
    e.children.foldlM famStep (DeviceBuilder.fromElem e, [])
  pure (collectExcept (all_devices.map (fun bldr =>
    match bldr.addParent family_device with
    | .error err => .error err
    | .ok b => b.build)))

abbrev Devices : Type := SMap Device

/-- One fold step of `Devices::from_elem` (device.rs 590–599): an `Err` on
either side is kept (first error wins), and a successful family's devices are
`extend`ed into the map keyed by device name. -/
def devicesStep (res : Except String Devices) (c : Element) :
    Option (Except String Devices) :=
  (parse_family c).map (fun fam =>
    match res, fam with
    | .ok devs, .ok add_this =>
      .ok (SMap.extend devs (add_this.map (fun dev => (dev.name, dev))))
    | .ok _, .error err => .error err
    | .error err, .ok _ => .error err
    | .error err, .error _ => .error err)

/-- Rust `Devices::from_elem` (device.rs 587–602). -/
def Devices.fromElem (e : Element) : Option (Except String Devices) :=
  e.children.foldlM devicesStep (Except.ok ([] : Devices))

/-! ## Index crawler (`vidx.rs`)

Streams from `futures 0.1` are embedded as lists of `Except ε α`: an `.ok`
is an item, an `.error` is a stream-level error element; combinators
(`filter_map`, `flatten`, `chain`) act on that list. The network is an
oracle `fetch : String → Except ε (Except π Vidx)`: outer error = transport
failure of `download_vidx`'s future, inner = VIDX/PIDX XML parse result.
The unordered fan-out is linearized in input order. -/

structure PdscRef where
  url : String
  vendor : String
  name : String
  version : String
deriving DecidableEq, Repr

structure Pidx where
  url : String
  vendor : String
deriving DecidableEq, Repr

structure Vidx where
  vendor_index : List Pidx
  pdsc_index : List PdscRef
deriving DecidableEq, Repr

/-- Rust `into_uri` (vidx.rs 53–55): the PIDX location is url, then vendor,
then `".pidx"`. -/
def into_uri (p : Pidx) : String :=
  p.url ++ p.vendor ++ ".pidx"

/-- Rust `download_vidx_list` (vidx.rs 32–46) applied to the PIDX URL list, with
the fan-out linearized: one stream element per URL. -/
def download_vidx_list (fetch : String → Except String (Except String Vidx))
    (urls : List String) : List (Except String (Except String Vidx)) :=
  urls.map fetch

/-- Rust `Stream::filter_map`: drops items mapped to `none`, passes stream errors
through. -/
def streamFilterMap {ε α β : Type} (f : α → Option β) :
    List (Except ε α) → List (Except ε β)
  | [] => []
  | .error e :: t => .error e :: streamFilterMap f t
  | .ok a :: t =>
    match f a with
    | some b => .ok b :: streamFilterMap f t
    | none => streamFilterMap f t

/-- Rust `Stream::flatten` for inner streams that are error-free (`iter_ok`). -/
def streamFlattenLists {ε β : Type} :
    List (Except ε (List β)) → List (Except ε β)
  | [] => []
  | .error e :: t => .error e :: streamFlattenLists t
  | .ok l :: t => l.map Except.ok ++ streamFlattenLists t

/-- Rust `flatmap_pdscs` (vidx.rs 57–76): root `pdsc_index` entries (as an
`iter_ok` stream) chained before the flattened, filter-mapped PIDX results. -/
def flatmap_pdscs (fetch : String → Except String (Except String Vidx))
    (v : Vidx) : List (Except String PdscRef) :=
  let pidx_urls := v.vendor_index.map into_uri
  let job := streamFlattenLists
    (streamFilterMap
      (fun r => match r with
        | .ok vx => some vx.pdsc_index
        | .error _ => none)
      (download_vidx_list fetch pidx_urls))
  v.pdsc_index.map Except.ok ++ job

/-- The items (non-error elements) of an embedded stream. -/
def streamItems {ε α : Type} : List (Except ε α) → List α
  | [] => []
  | .error _ :: t => streamItems t
  | .ok a :: t => a :: streamItems t

/-- Holds exactly on `some (.ok _)`: the parse neither panicked nor returned
an error. -/
def isSomeOk {ε α : Type} : Option (Except ε α) → Bool
  | some (.ok _) => true
  | _ => false

/-- Rust `Result::and_then`. -/
def exceptAndThen {ε α β : Type} (r : Except ε α) (f : α → Except ε β) : Except ε β :=
  match r with
  | .ok a => f a
  | .error e => .error e

/-- Boolean character membership (used to state which access-bag characters
occur in an input string). -/
def chrMem (a : Char) : List Char → Bool
  | [] => false
  | c :: t => if c = a then true else chrMem a t

/-- Effectful map over `Option`, by direct recursion. -/
def optMapM {α β : Type} (f : α → Option β) : List α → Option (List β)
  | [] => some []
  | a :: t =>
    match f a with
    | none => none
    | some b => (optMapM f t).map (fun bs => b :: bs)

/-! ## Concrete fixtures used by counterexamples and witnesses -/

def pbM0 : ProcessorBuilder := ⟨some .CortexM0, none, none, none⟩

def pbM4 : ProcessorBuilder := ⟨some .CortexM4, none, none, none⟩

def algA : Algorithm := ⟨"a.flm", 0, 1, false, none, none⟩

def algB : Algorithm := ⟨"b.flm", 0, 1, false, none, none⟩

def algC : Algorithm := ⟨"c.flm", 0, 1, false, none, none⟩

/-- A family-level builder declaring algorithms `[A, B]` and a core. -/
def famB1 : DeviceBuilder := ⟨some "FAM", [algA, algB], [], some (.Symmetric pbM0)⟩

/-- A device-level builder declaring algorithm `[C]`. -/
def devB1 : DeviceBuilder := ⟨some "D1", [algC], [], none⟩

/-- Value of `devB1.addParent famB1`, evaluated. -/
def devFamMerged : DeviceBuilder := ⟨some "D1", [algC, algA, algB], [], some (.Symmetric pbM0)⟩

def rwPerms : MemoryPermissions := ⟨true, true, false, false, false, false, false⟩

def rxPerms : MemoryPermissions := ⟨true, false, true, false, false, false, false⟩

/-- Family-level `IRAM1`, size `0x10000`. -/
def memFam : Memory := ⟨rwPerms, 0x20000000, 0x10000, false, false⟩

/-- Device-level `IRAM1`, size `0x20000`. -/
def memDev : Memory := ⟨rwPerms, 0x20000000, 0x20000, false, false⟩

def childB4 : DeviceBuilder := ⟨some "D", [], [("IRAM1", memDev)], none⟩

def parentB4 : DeviceBuilder := ⟨none, [], [("IRAM1", memFam)], none⟩

/-- Value of `childB4.addParent parentB4`, evaluated. -/
def mergedB4 : DeviceBuilder := ⟨some "D", [], [("IRAM1", memDev)], none⟩

def famProcE : Element := ⟨"processor", [("Dcore", "Cortex-M4"), ("Dfpu", "SP_FPU")], []⟩

def devProcE : Element := ⟨"processor", [("Dmpu", "MPU")], []⟩

def procM0E : Element := ⟨"processor", [("Dcore", "Cortex-M0")], []⟩

def procFpuE : Element := ⟨"processor", [("Dfpu", "1")], []⟩

/-- A device that resolves a core. -/
def d1E : Element := ⟨"device", [("Dname", "D1")], [procM0E]⟩

/-- A device whose processor declares only `Dfpu`: no core anywhere. -/
def d2E : Element := ⟨"device", [("Dname", "D2")], [procFpuE]⟩

/-- Family with a good device `D1` and a core-less device `D2`. -/
def famE3 : Element := ⟨"family", [("Dfamily", "F")], [d1E, d2E]⟩

def rootE3 : Element := ⟨"devices", [], [famE3]⟩

def famOkE : Element := ⟨"family", [("Dfamily", "G")], [d1E]⟩

def rootOkE : Element := ⟨"devices", [], [famOkE]⟩

/-- A `subFamily` wrapper with no name-contributing attributes and only
`device` children. -/
def sfE9 : Element := ⟨"subFamily", [("DsubFamily", "S")], [d1E]⟩

/-- A `<memory>` element with a `name` attribute but neither `access` nor
`id`. -/
def memNoIdE : Element := ⟨"memory", [("name", "mem1"), ("start", "0x0"), ("size", "0x0")], []⟩

def eRomE : Element := ⟨"memory", [("id", "IROM1")], []⟩

def eRamE : Element := ⟨"memory", [("id", "IRAM1")], []⟩

def eOtherE : Element := ⟨"memory", [("id", "FLASH")], []⟩

/-! # Lemmas about the association-list maps -/

theorem smap_lookup_append {β : Type} (a b : SMap β) (k : String) :
    SMap.lookup (a ++ b) k = (SMap.lookup a k).or (SMap.lookup b k) := by
  induction a with
  | nil => simp [SMap.lookup]
  | cons hd t ih =>
    obtain ⟨k', v⟩ := hd
    by_cases h : k' = k <;> simp [SMap.lookup, h, ih]

theorem smap_lookup_erase {β : Type} (m : SMap β) (k k' : String) :
    SMap.lookup (m.erase k) k' = if k = k' then none else SMap.lookup m k' := by
  induction m with
  | nil => simp [SMap.lookup, SMap.erase]
  | cons hd t ih =>
    obtain ⟨k0, v⟩ := hd
    by_cases h0 : k0 = k
    · subst h0
      by_cases h1 : k0 = k'
      · subst h1; simp [SMap.erase, List.filter, SMap.lookup] at ih ⊢; simpa using ih
      · simp [SMap.erase, List.filter, SMap.lookup, h1] at ih ⊢
        simpa [h1] using ih
    · by_cases h1 : k0 = k'
      · subst h1
        have hk : ¬ k = k0 := fun hh => h0 hh.symm
        simp [SMap.erase, List.filter, SMap.lookup, h0, hk]
      · simp [SMap.erase, List.filter, SMap.lookup, h0, h1] at ih ⊢
        simpa using ih

theorem smap_lookup_insert {β : Type} (m : SMap β) (k : String) (v : β) (k' : String) :
    SMap.lookup (m.insert k v) k' = if k = k' then some v else SMap.lookup m k' := by
  unfold SMap.insert
  rw [smap_lookup_append, smap_lookup_erase]
  by_cases h : k = k' <;> simp [SMap.lookup, h]

theorem smap_lookup_eq_none {β : Type} (l : SMap β) (k : String)
    (h : k ∉ l.map Prod.fst) : SMap.lookup l k = none := by
  induction l with
  | nil => rfl
  | cons hd t ih =>
    obtain ⟨k0, v⟩ := hd
    rw [List.map_cons] at h
    have h1 : ¬ (k0 = k) := fun hh => h (hh ▸ List.mem_cons_self k0 _)
    have h2 : k ∉ t.map Prod.fst := fun hh => h (List.mem_cons_of_mem _ hh)
    simp [SMap.lookup, h1, ih h2]

theorem smap_lookup_extend {β : Type} (m : SMap β) (l : List (String × β))
    (hl : nodupKeys l) (k : String) :
    SMap.lookup (m.extend l) k = (SMap.lookup l k).or (SMap.lookup m k) := by
  induction l generalizing m with
  | nil => simp [SMap.extend, SMap.lookup]
  | cons hd t ih =>
    obtain ⟨k0, v⟩ := hd
    have hnt : nodupKeys t := (List.nodup_cons.mp hl).2
    have hk0 : k0 ∉ t.map Prod.fst := (List.nodup_cons.mp hl).1
    have : SMap.extend m ((k0, v) :: t) = SMap.extend (m.insert k0 v) t := rfl
    rw [this, ih _ hnt]
    by_cases h : k0 = k
    · subst h
      rw [smap_lookup_eq_none t k0 hk0, smap_lookup_insert]
      simp [SMap.lookup]
    · rw [smap_lookup_insert]
      simp [SMap.lookup, h]

theorem smap_lookup_filter_key {β : Type} (l : SMap β) (q : String → Bool) (k : String) :
    SMap.lookup (l.filter (fun kv => q kv.1)) k
      = if q k then SMap.lookup l k else none := by
  induction l with
  | nil => simp [SMap.lookup]
  | cons hd t ih =>
    obtain ⟨k0, v⟩ := hd
    by_cases h : k0 = k
    · subst h
      by_cases hq : q k0 <;> simp [List.filter, SMap.lookup, hq, ih]
    · by_cases hq : q k0 <;> simp [List.filter, SMap.lookup, hq, h, ih]

theorem nodup_filter_keys {β : Type} (l : SMap β) (q : String × β → Bool)
    (h : nodupKeys l) : nodupKeys (l.filter q) := by
  have hs : List.Sublist ((l.filter q).map Prod.fst) (l.map Prod.fst) :=
    List.Sublist.map Prod.fst (List.filter_sublist l)
  exact List.Nodup.sublist hs h

/-- The lookup law of `merge_memories` (device.rs 369–383): the child (`lhs`)
entry wins, the parent (`rhs`) fills absent keys only. -/
theorem merge_memories_lookup (lhs rhs : Memories) (h : nodupKeys rhs) (k : String) :
    SMap.lookup (merge_memories lhs rhs) k
      = (SMap.lookup lhs k).or (SMap.lookup rhs k) := by
  unfold merge_memories
  rw [smap_lookup_extend _ _ (nodup_filter_keys rhs _ h) k]
  rw [smap_lookup_filter_key rhs (fun k' => !(SMap.containsKey lhs k')) k]
  unfold SMap.containsKey
  cases hc : SMap.lookup lhs k with
  | none => simp [hc]
  | some v => simp [hc]

/-! # Claim theorems -/

/-- The memories of a successful `add_parent` result are the child-wins merge
of the two mappings. -/
theorem addParent_memories (child parent res : DeviceBuilder)
    (h : child.addParent parent = .ok res) :
    res.memories = merge_memories child.memories parent.memories := by
  unfold DeviceBuilder.addParent at h
  split at h
  · split at h
    · simp at h
    · simp only [Except.ok.injEq] at h
      rw [← h]
  · simp only [Except.ok.injEq] at h
    rw [← h]

/-- Claim C4: for every child and parent mapping merged via `add_parent`, the
result keeps the child's entry for every key of the child and inserts a parent
entry only for keys absent from the child — looked up, child wins, parent
fills holes. -/
theorem C4_memory_child_wins (child parent res : DeviceBuilder)
    (h : child.addParent parent = .ok res) (hn : nodupKeys parent.memories)
    (k : String) :
    SMap.lookup res.memories k
      = (SMap.lookup child.memories k).or (SMap.lookup parent.memories k) := by
  rw [addParent_memories child parent res h]
  exact merge_memories_lookup _ _ hn k

/-- Claim C4 witness: `IRAM1` declared at both family (size `0x10000`) and
device (size `0x20000`) levels resolves to the device-level entry. -/
theorem C4_memory_child_wins_witness :
    SMap.lookup mergedB4.memories "IRAM1" = some memDev ∧ memDev.size = 0x20000 := by
  have h := C4_memory_child_wins childB4 parentB4 mergedB4 (by decide) (by decide) "IRAM1"
  constructor
  · rw [h]; decide
  · decide

/-- Claim C2 counterexample: a pname (`"core0"`) present in both the child and
the parent map resolves to the **parent's** builder after the merge
(`BTreeMap::extend` replaces on key collision), not the child's. -/
theorem C2_pname_counterexample :
    ProcessorsBuilder.merge (.Asymmetric [("core0", pbM0)])
        (some (.Asymmetric [("core0", pbM4)]))
      = .ok (.Asymmetric [("core0", pbM4)])
    ∧ pbM4 ≠ pbM0 := by decide

/-- Claim C2 (amended): merging two `Asymmetric` builders yields the
per-pname union in which, for every pname present in both maps, the
**parent's** entry is kept; child entries survive only for pnames absent
from the parent. -/
theorem C2_asymmetric_parent_wins (me par : SMap ProcessorBuilder)
    (hn : nodupKeys par) (k : String) :
    ProcessorsBuilder.merge (.Asymmetric me) (some (.Asymmetric par))
      = .ok (.Asymmetric (SMap.extend me par))
    ∧ SMap.lookup (SMap.extend me par) k
      = (SMap.lookup par k).or (SMap.lookup me k) :=
  ⟨rfl, smap_lookup_extend me par hn k⟩

/-- Claim C2 witness: concrete two-entry child, one-entry parent. -/
theorem C2_asymmetric_parent_wins_witness :
    ProcessorsBuilder.merge (.Asymmetric [("a", pbM0), ("b", pbM0)])
        (some (.Asymmetric [("b", pbM4)]))
      = .ok (.Asymmetric (SMap.extend [("a", pbM0), ("b", pbM0)] [("b", pbM4)]))
    ∧ SMap.lookup (SMap.extend [("a", pbM0), ("b", pbM0)] [("b", pbM4)]) "b"
      = (SMap.lookup [("b", pbM4)] "b").or (SMap.lookup [("a", pbM0), ("b", pbM0)] "b") :=
  C2_asymmetric_parent_wins [("a", pbM0), ("b", pbM0)] [("b", pbM4)] (by decide) "b"

/-- Claim C1 counterexample: family algorithms `[A, B]`, device algorithms
`[C]`; `add_parent` produces `[C, A, B]` (child first), not `[A, B, C]`. -/
theorem C1_algorithm_counterexample :
    Except.map DeviceBuilder.algorithms (devB1.addParent famB1)
      = .ok [algC, algA, algB]
    ∧ [algC, algA, algB] ≠ [algA, algB, algC] := by decide

/-- Claim C1 (amended): for every device builder merged with its parent via
`add_parent`, the resulting algorithm sequence is the concatenation of the
**child's** algorithms followed by the **parent's** algorithms, with no
deduplication. -/
theorem C1_algorithm_concat (child parent res : DeviceBuilder)
    (h : child.addParent parent = .ok res) :
    res.algorithms = child.algorithms ++ parent.algorithms := by
  unfold DeviceBuilder.addParent at h
  split at h
  · split at h
    · simp at h
    · simp only [Except.ok.injEq] at h
      rw [← h]
  · simp only [Except.ok.injEq] at h
    rw [← h]

/-- Claim C1 witness: the merged `[C] + [A, B]` builder. -/
theorem C1_algorithm_concat_witness :
    devFamMerged.algorithms = devB1.algorithms ++ famB1.algorithms :=
  C1_algorithm_concat devB1 famB1 devFamMerged (by decide)

/-- Claim C5: merging two `Symmetric` processor builders is field-wise
`child.or parent` on `core`, `units`, `fpu`, `mpu`; concretely, a family
`<processor Dcore="Cortex-M4" Dfpu="SP_FPU"/>` merged into a device
`<processor Dmpu="MPU"/>` builds to
`Symmetric{units: 1, core: CortexM4, fpu: SinglePrecision, mpu: Present}`. -/
theorem C5_symmetric_merge :
    (∀ c p : ProcessorBuilder,
      ProcessorsBuilder.merge (.Symmetric c) (some (.Symmetric p))
        = .ok (.Symmetric ⟨c.core.or p.core, c.units.or p.units,
                           c.fpu.or p.fpu, c.mpu.or p.mpu⟩))
    ∧ exceptAndThen
        (ProcessorsBuilder.merge (ProcessorsBuilder.fromElem devProcE)
          (some (ProcessorsBuilder.fromElem famProcE)))
        ProcessorsBuilder.build
      = .ok (.Symmetric ⟨1, .CortexM4, .SinglePrecision, .Present⟩) :=
  ⟨fun _ _ => rfl, by decide⟩

/-- Claim C6 counterexample: two builders that differ only in their device
name fail with the **identical** error value `"No Core found!"` — the error
does not carry the device name (unlike the missing-processor error, which
does). -/
theorem C6_no_core_counterexample :
    DeviceBuilder.build ⟨some "dev", [], [], some (.Symmetric ⟨none, none, none, none⟩)⟩
      = .error "No Core found!"
    ∧ DeviceBuilder.build ⟨some "other", [], [], some (.Symmetric ⟨none, none, none, none⟩)⟩
      = .error "No Core found!"
    ∧ strContainsStr "No Core found!" "dev" = false := by decide

/-- Claim C6 (amended): `build()` fails with the error `"No Core found!"`
(not mentioning the device name) whenever no core is resolved; otherwise it
applies the defaults `units = 1`, `fpu = None`, `mpu = NotPresent`; it rejects
a builder without a name, and a builder without a processor (that error does
carry the name). -/
theorem C6_build_rules :
    (∀ (n : String) (algs : List Algorithm) (mems : Memories)
        (u : Option Nat) (f : Option FPU) (m : Option MPU),
      DeviceBuilder.build ⟨some n, algs, mems, some (.Symmetric ⟨none, u, f, m⟩)⟩
        = .error "No Core found!")
    ∧ (∀ (n : String) (algs : List Algorithm) (mems : Memories) (c : Core),
      DeviceBuilder.build ⟨some n, algs, mems, some (.Symmetric ⟨some c, none, none, none⟩)⟩
        = .ok ⟨n, mems, algs, .Symmetric ⟨1, c, .None, .NotPresent⟩⟩)
    ∧ (∀ (algs : List Algorithm) (mems : Memories) (p : Option ProcessorsBuilder),
      DeviceBuilder.build ⟨none, algs, mems, p⟩ = .error "Device found without a name")
    ∧ (∀ (n : String) (algs : List Algorithm) (mems : Memories),
      DeviceBuilder.build ⟨some n, algs, mems, none⟩
        = .error ("Device found without a processor " ++ n)) :=
  ⟨fun _ _ _ _ _ _ => rfl, fun _ _ _ _ => rfl, fun _ _ _ => rfl, fun _ _ _ => rfl⟩

/-- The character fold of `MemoryPermissions::from_str` sets each flag to
whether its character occurs in the remaining input. -/
theorem permStep_foldl (l : List Char) (m : MemoryPermissions) :
    l.foldl permStep m =
      ⟨m.read || chrMem 'r' l, m.write || chrMem 'w' l, m.execute || chrMem 'x' l,
       m.peripheral || chrMem 'p' l, m.secure || chrMem 's' l,
       m.non_secure || chrMem 'n' l, m.non_secure_callable || chrMem 'c' l⟩ := by
  induction l generalizing m with
  | nil => simp [chrMem]
  | cons c t ih =>
    rw [List.foldl_cons, ih]
    unfold permStep
    split_ifs with h1 h2 h3 h4 h5 h6 h7
    · subst h1; simp [chrMem]
    · subst h2; simp [chrMem]
    · subst h3; simp [chrMem]
    · subst h4; simp [chrMem]
    · subst h5; simp [chrMem]
    · subst h6; simp [chrMem]
    · subst h7; simp [chrMem]
    · simp [chrMem, h1, h2, h3, h4, h5, h6, h7]

/-- Claim C8: the access-bag parser sets exactly the flags named by the
characters `r w x p s n c` present in the input and ignores everything else
(`"rwxpsn"` sets those six and leaves `non_secure_callable` false); and when
the `access` attribute is absent, the permissions derive from the `id`:
containing `"ROM"` gives `rx`, otherwise containing `"RAM"` gives `rw`, any
other id gives no permissions. -/
theorem C8_access_parsing :
    (∀ s : String, MemoryPermissions.from_str s =
      ⟨chrMem 'r' s.data, chrMem 'w' s.data, chrMem 'x' s.data, chrMem 'p' s.data,
       chrMem 's' s.data, chrMem 'n' s.data, chrMem 'c' s.data⟩)
    ∧ MemoryPermissions.from_str "rwxpsn" = ⟨true, true, true, true, true, true, false⟩
    ∧ (∀ (e : Element) (i : String), e.attr "access" = none → e.attr "id" = some i →
        (strContainsStr i "ROM" = true → memElemAccess e = some rxPerms)
        ∧ (strContainsStr i "ROM" = false → strContainsStr i "RAM" = true →
            memElemAccess e = some rwPerms)
        ∧ (strContainsStr i "ROM" = false → strContainsStr i "RAM" = false →
            memElemAccess e = some permNone)) := by
  refine ⟨fun s => ?_, by decide, fun e i h1 h2 => ⟨fun hrom => ?_, fun hrom hram => ?_, fun hrom hram => ?_⟩⟩
  · unfold MemoryPermissions.from_str
    rw [permStep_foldl]
    rfl
  · unfold memElemAccess
    rw [h1, h2]
    simp [Option.or, hrom]
    decide
  · unfold memElemAccess
    rw [h1, h2]
    simp [Option.or, hrom, hram]
    decide
  · unfold memElemAccess
    rw [h1, h2]
    simp [Option.or, hrom, hram]
    decide

/-- Claim C8 witness: concrete memory elements with `id` values `IROM1`,
`IRAM1`, `FLASH` and no `access` attribute. -/
theorem C8_access_parsing_witness :
    memElemAccess eRomE = some rxPerms
    ∧ memElemAccess eRamE = some rwPerms
    ∧ memElemAccess eOtherE = some permNone := by
  have hrom := (C8_access_parsing.2.2 eRomE "IROM1" (by decide) (by decide)).1 (by decide)
  have hram := (C8_access_parsing.2.2 eRamE "IRAM1" (by decide) (by decide)).2.1 (by decide) (by decide)
  have hoth := (C8_access_parsing.2.2 eOtherE "FLASH" (by decide) (by decide)).2.2 (by decide) (by decide)
  exact ⟨hrom, hram, hoth⟩

/-- Claim C10: `MemElem::from_elem` is partial — on a `<memory>` element with
a `name` attribute but neither `access` nor `id`, the access computation
unwraps a `None` and panics (modelled as `none`) instead of returning a
`ParseError`. -/
theorem C10_memelem_panics :
    memNoIdE.attr "access" = none
    ∧ memNoIdE.attr "id" = none
    ∧ memNoIdE.attr "name" = some "mem1"
    ∧ MemElem.fromElem memNoIdE = none := by decide

/-- Items of a chained block of `.ok` elements. -/
theorem streamItems_okmap_append {ε α : Type} (l : List α) (s : List (Except ε α)) :
    streamItems (l.map Except.ok ++ s) = l ++ streamItems s := by
  induction l with
  | nil => rfl
  | cons a t ih => simp [streamItems, ih]

/-- The items contributed by the PIDX stage: each successfully fetched and
parsed PIDX contributes its `pdsc_index` in order; a transport or parse
failure contributes nothing and the walk continues. -/
theorem pidx_job_items (fetch : String → Except String (Except String Vidx))
    (ps : List Pidx) :
    streamItems (streamFlattenLists
      (streamFilterMap
        (fun r => match r with
          | .ok vx => some vx.pdsc_index
          | .error _ => none)
        (download_vidx_list fetch (ps.map into_uri))))
      = ps.flatMap (fun p =>
          match fetch (into_uri p) with
          | .ok (.ok vx) => vx.pdsc_index
          | .ok (.error _) => []
          | .error _ => []) := by
  induction ps with
  | nil => rfl
  | cons p t ih =>
    cases hf : fetch (into_uri p) with
    | error e =>
      simp only [download_vidx_list, List.map_cons] at ih ⊢
      rw [hf]
      simpa [streamFilterMap, streamFlattenLists, streamItems, hf] using ih
    | ok pr =>
      cases pr with
      | error pe =>
        simp only [download_vidx_list, List.map_cons] at ih ⊢
        rw [hf]
        simpa [streamFilterMap, hf] using ih
      | ok vx =>
        simp only [download_vidx_list, List.map_cons] at ih ⊢
        rw [hf]
        simpa [streamFilterMap, streamFlattenLists, hf, streamItems_okmap_append] using ih

/-- Claim C7: `flatmap_pdscs` emits the root vidx's `pdsc_index` entries
first, in document order; after them, the items are exactly the `pdsc_index`
entries of each PIDX that was successfully fetched and parsed, in order; a
PIDX that fails to fetch or to parse contributes no items and the entries of
every other PIDX still appear. -/
theorem C7_flatmap_pdscs (fetch : String → Except String (Except String Vidx))
    (v : Vidx) :
    (flatmap_pdscs fetch v).take v.pdsc_index.length = v.pdsc_index.map Except.ok
    ∧ streamItems ((flatmap_pdscs fetch v).drop v.pdsc_index.length)
        = v.vendor_index.flatMap (fun p =>
            match fetch (into_uri p) with
            | .ok (.ok vx) => vx.pdsc_index
            | .ok (.error _) => []
            | .error _ => []) := by
  have hlen : (v.pdsc_index.map (Except.ok : PdscRef → Except String PdscRef)).length
      = v.pdsc_index.length := by simp
  constructor
  · exact List.take_left' hlen
  · rw [show (flatmap_pdscs fetch v).drop v.pdsc_index.length
        = streamFlattenLists
            (streamFilterMap
              (fun r => match r with
                | .ok vx => some vx.pdsc_index
                | .error _ => none)
              (download_vidx_list fetch (v.vendor_index.map into_uri)))
      from List.drop_left' hlen]
    exact pidx_job_items fetch v.vendor_index

/-- Once the catalog fold holds an error, it can only stay that same error
(or hit a later panic). -/
theorem devicesFold_error (l : List Element) (err : String) :
    l.foldlM devicesStep (Except.error err) = none
    ∨ l.foldlM devicesStep (Except.error err) = some (Except.error err) := by
  induction l with
  | nil => exact Or.inr rfl
  | cons c t ih =>
    cases hp : parse_family c with
    | none =>
      left
      simp [List.foldlM_cons, devicesStep, hp]
    | some fam =>
      have hstep : devicesStep (Except.error err) c
          = some (Except.error err) := by
        cases fam <;> simp [devicesStep, hp]
      simpa [List.foldlM_cons, hstep] using ih

/-- If the catalog fold over a list of family elements produced a value, every
element's `parse_family` succeeded. -/
theorem devicesFold_ok_all (l : List Element) (res0 : Except String Devices)
    (h : isSomeOk (l.foldlM devicesStep res0) = true) :
    ∀ c ∈ l, isSomeOk (parse_family c) = true := by
  induction l generalizing res0 with
  | nil => intro c hc; cases hc
  | cons a t ih =>
    intro c hc
    cases hs : devicesStep res0 a with
    | none => rw [List.foldlM_cons, hs] at h; simp [isSomeOk] at h
    | some r1 =>
      rw [List.foldlM_cons, hs] at h
      have h2 : isSomeOk (t.foldlM devicesStep r1) = true := h
      rcases List.mem_cons.mp hc with hceq | hct
      · subst hceq
        cases hp : parse_family c with
        | none => rw [devicesStep, hp] at hs; simp at hs
        | some fam =>
          cases fam with
          | ok devs => simp [isSomeOk]
          | error err =>
            rw [devicesStep, hp] at hs
            have hr1 : ∃ e', r1 = Except.error e' := by
              cases res0 <;> simp_all <;> exact ⟨_, hs.symm⟩
            obtain ⟨e', he'⟩ := hr1
            subst he'
            rcases devicesFold_error t e' with hnone | herr
            · rw [hnone] at h2; simp [isSomeOk] at h2
            · rw [herr] at h2; simp [isSomeOk] at h2
      · exact ih r1 h2 c hct

/-- Claim C3 counterexample: in a family with devices `D1` (good) and `D2`
(no core anywhere), the failing `build()` of `D2` does **not** leave `D1` in
the catalog — `Devices::from_elem` returns the error for the whole catalog,
so no mapping is produced at all. -/
theorem C3_sibling_counterexample :
    Devices.fromElem rootE3 = some (.error "No Core found!")
    ∧ isSomeOk (Devices.fromElem rootE3) = false := by decide

/-- Claim C3 (amended): when the final `build()` of one complete device
fails, the error aborts the whole family (`parse_family` collects into a
single `Result`) and `Devices::from_elem` then aborts the whole catalog;
contrapositively, a successful catalog requires `parse_family` to have
succeeded for every child, so sibling devices survive only when no device of
their family failed. -/
theorem C3_family_error_aborts_catalog (root : Element) (c : Element)
    (hc : c ∈ root.children)
    (h : isSomeOk (Devices.fromElem root) = true) :
    isSomeOk (parse_family c) = true :=
  devicesFold_ok_all root.children (Except.ok []) h c hc

/-- Claim C3 witness: a one-family catalog that parses successfully. -/
theorem C3_family_error_aborts_catalog_witness :
    isSomeOk (parse_family famOkE) = true :=
  C3_family_error_aborts_catalog rootOkE famOkE (List.Mem.head _) (by decide)

/-- Monadic left fold over `Option` splits across an append. -/
theorem foldlM_opt_append {α σ : Type} (f : σ → α → Option σ) (l1 l2 : List α)
    (init : σ) :
    (l1 ++ l2).foldlM f init = (l1.foldlM f init) >>= (fun s => l2.foldlM f s) := by
  induction l1 generalizing init with
  | nil => simp
  | cons a t ih => cases hf : f init a <;> simp [List.foldlM_cons, hf, ih]

theorem merge_memories_nil (m : Memories) : merge_memories m [] = m := rfl

/-- Applying `add_parent` against an empty parent builder (no name, no algorithms, no
memories, no processor) is the identity. -/
theorem addParent_emptyB (b : DeviceBuilder) :
    b.addParent ⟨none, [], [], none⟩ = .ok b := by
  obtain ⟨nm, algs, mems, proc⟩ := b
  cases proc with
  | none => cases nm <;> simp [DeviceBuilder.addParent, merge_memories_nil]
  | some p =>
    cases p with
    | Symmetric pb =>
      cases nm <;>
        simp [DeviceBuilder.addParent, ProcessorsBuilder.merge, merge_memories_nil]
    | Asymmetric mm =>
      cases nm <;>
        simp [DeviceBuilder.addParent, ProcessorsBuilder.merge, merge_memories_nil]

/-- Folding the warn-and-skip `add_parent` against the empty parent collects
exactly the input builders. -/
theorem foldl_append_singleton {α : Type} (t : List α) :
    ∀ acc : List α, t.foldl (fun acc2 x => acc2 ++ [x]) acc = acc ++ t := by
  induction t with
  | nil => intro acc; simp
  | cons a t ih => intro acc; rw [List.foldl_cons, ih]; simp

theorem foldl_addParent_empty (ds : List DeviceBuilder) (acc : List DeviceBuilder) :
    ds.foldl (fun acc2 bldr => acc2 ++ okWarnList (bldr.addParent ⟨none, [], [], none⟩)) acc
      = acc ++ ds := by
  simp [addParent_emptyB, okWarnList, foldl_append_singleton]

/-- Over children that are all `device` elements, the sub-family fold leaves
the level builder untouched and concatenates the parsed device builders. -/
theorem subStep_device_fold (l : List Element) :
    ∀ (b : DeviceBuilder) (acc : List DeviceBuilder),
      (∀ c ∈ l, c.name = "device") →
      l.foldlM subStep (b, acc)
        = (optMapM parse_device l).map (fun dss => (b, acc ++ dss.flatten)) := by
  induction l with
  | nil => intro b acc _; simp [optMapM]
  | cons c t ih =>
    intro b acc h
    have hc : c.name = "device" := h c (List.mem_cons_self c t)
    have ht : ∀ x ∈ t, x.name = "device" := fun x hx => h x (List.mem_cons_of_mem c hx)
    rw [List.foldlM_cons]
    have hstep : subStep (b, acc) c = (parse_device c).map (fun ds => (b, acc ++ ds)) := by
      simp [subStep, hc]
    rw [hstep]
    cases hp : parse_device c with
    | none => simp [optMapM, hp]
    | some ds =>
      show t.foldlM subStep (b, acc ++ ds)
        = (optMapM parse_device (c :: t)).map (fun dss => (b, acc ++ dss.flatten))
      rw [ih b (acc ++ ds) ht]
      cases hq : optMapM parse_device t with
      | none => simp [optMapM, hp, hq]
      | some dss => simp [optMapM, hp, hq, List.append_assoc]

/-- Same statement for the family-level fold. -/
theorem famStep_device_fold (l : List Element) :
    ∀ (b : DeviceBuilder) (acc : List DeviceBuilder),
      (∀ c ∈ l, c.name = "device") →
      l.foldlM famStep (b, acc)
        = (optMapM parse_device l).map (fun dss => (b, acc ++ dss.flatten)) := by
  induction l with
  | nil => intro b acc _; simp [optMapM]
  | cons c t ih =>
    intro b acc h
    have hc : c.name = "device" := h c (List.mem_cons_self c t)
    have ht : ∀ x ∈ t, x.name = "device" := fun x hx => h x (List.mem_cons_of_mem c hx)
    rw [List.foldlM_cons]
    have hstep : famStep (b, acc) c = (parse_device c).map (fun ds => (b, acc ++ ds)) := by
      simp [famStep, hc]
    rw [hstep]
    cases hp : parse_device c with
    | none => simp [optMapM, hp]
    | some ds =>
      show t.foldlM famStep (b, acc ++ ds)
        = (optMapM parse_device (c :: t)).map (fun dss => (b, acc ++ dss.flatten))
      rw [ih b (acc ++ ds) ht]
      cases hq : optMapM parse_device t with
      | none => simp [optMapM, hp, hq]
      | some dss => simp [optMapM, hp, hq, List.append_assoc]

/-- A `subFamily` with no name-contributing attributes and only `device`
children parses to exactly the concatenation of its devices' builders. -/
theorem parse_sub_family_devices (sf : Element)
    (h2 : sf.attr "Dname" = none) (h3 : sf.attr "Dvariant" = none)
    (h4 : ∀ c ∈ sf.children, c.name = "device") :
    parse_sub_family sf = (optMapM parse_device sf.children).map List.flatten := by
  have hemp : DeviceBuilder.fromElem sf = ⟨none, [], [], none⟩ := by
    unfold DeviceBuilder.fromElem
    rw [h2, h3]
    rfl
  unfold parse_sub_family
  rw [hemp, subStep_device_fold sf.children ⟨none, [], [], none⟩ [] h4]
  cases hq : optMapM parse_device sf.children with
  | none => rfl
  | some dss =>
    show some ((([] : List DeviceBuilder) ++ dss.flatten).foldl
        (fun acc bldr => acc ++ okWarnList (bldr.addParent ⟨none, [], [], none⟩)) [])
      = some dss.flatten
    rw [foldl_addParent_empty]
    simp

/-- At family level, one empty `subFamily` step contributes exactly what its
device children would contribute if placed there directly. -/
theorem famStep_subfamily_eq (sf : Element) (h1 : sf.name = "subFamily")
    (h2 : sf.attr "Dname" = none) (h3 : sf.attr "Dvariant" = none)
    (h4 : ∀ c ∈ sf.children, c.name = "device")
    (st : DeviceBuilder × List DeviceBuilder) :
    List.foldlM famStep st [sf] = List.foldlM famStep st sf.children := by
  obtain ⟨b, acc⟩ := st
  rw [List.foldlM_cons]
  have hfs : famStep (b, acc) sf = (parse_sub_family sf).map (fun ds => (b, acc ++ ds)) := by
    simp [famStep, h1]
  rw [hfs, parse_sub_family_devices sf h2 h3 h4,
    famStep_device_fold sf.children b acc h4]
  cases hq : optMapM parse_device sf.children <;> simp [hq]

/-- Claim C9: inheritance is idempotent across an empty intermediate level —
interposing a `subFamily` that carries no name-contributing attributes and
whose children are exactly the device elements yields the same parse as
placing those device elements directly under the family. -/
theorem C9_subfamily_idempotent (nm : String) (attrs : List (String × String))
    (pre post : List Element) (sf : Element)
    (h1 : sf.name = "subFamily") (h2 : sf.attr "Dname" = none)
    (h3 : sf.attr "Dvariant" = none)
    (h4 : ∀ c ∈ sf.children, c.name = "device") :
    parse_family ⟨nm, attrs, pre ++ sf :: post⟩
      = parse_family ⟨nm, attrs, pre ++ (sf.children ++ post)⟩ := by
  unfold parse_family
  have hfold :
      List.foldlM famStep
          (DeviceBuilder.fromElem ⟨nm, attrs, pre ++ sf :: post⟩, ([] : List DeviceBuilder))
          (pre ++ sf :: post)
        = List.foldlM famStep
            (DeviceBuilder.fromElem ⟨nm, attrs, pre ++ sf :: post⟩, ([] : List DeviceBuilder))
            (pre ++ (sf.children ++ post)) := by
    rw [show pre ++ sf :: post = pre ++ ([sf] ++ post) from rfl]
    rw [foldlM_opt_append, foldlM_opt_append]
    apply congrArg
    funext st
    rw [foldlM_opt_append, foldlM_opt_append,
      famStep_subfamily_eq sf h1 h2 h3 h4 st]
  rw [hfold]
  rfl

/-- Claim C9 witness: a concrete empty `subFamily S` wrapping device `D1`
under family `F`. -/
theorem C9_subfamily_idempotent_witness :
    parse_family ⟨"family", [("Dfamily", "F")], [] ++ sfE9 :: []⟩
      = parse_family ⟨"family", [("Dfamily", "F")], [] ++ (sfE9.children ++ [])⟩ :=
  C9_subfamily_idempotent "family" [("Dfamily", "F")] [] [] sfE9 rfl (by decide) (by decide)
    (fun c hc => by rw [List.mem_singleton.mp hc]; decide)
